import Mathlib

/-!
Verification of the `mycat` utility (src/mycat/mycat.cpp): a shallow
embedding of its line-transformation and multi-source streaming pipeline,
followed by theorems about the behaviour of that embedding.

Modelling conventions:
* A line read by `std::getline` is a Lean `String` (terminator stripped).
* The standard-output sink is a `List String` of the chunks written for
  each emitted line (number field, transformed text and terminator fused
  into one chunk, in the order the program writes them).
* The standard-error sink is a `List String` of diagnostic lines.
* The filesystem environment is summarised per source by a `SourceFate`:
  the access check fails, the open fails, or the source yields a list of
  lines and possibly ends in a read error (`istream::bad`).
* The C++ `int line_number` only ever starts at 1 and is incremented, so
  it is modelled as `Nat`.
-/

/-- The option flags of `mycat` (struct `Options` in mycat.cpp). -/
structure Options where
  number_lines : Bool := false
  number_non_blank : Bool := false
  show_ends : Bool := false
  show_tabs : Bool := false
  squeeze_blanks : Bool := false
deriving DecidableEq, Repr

/-- The mutable state threaded by `main` through `process_file` calls:
`int line_number` and `bool last_was_blank`. -/
structure StreamState where
  line_number : Nat
  last_was_blank : Bool
deriving DecidableEq, Repr

/-- The tab-expansion loop inside `transform_line`: each `\t` becomes the
two characters `^I`, every other character is copied unchanged. -/
def tab_expand : List Char → List Char
  | [] => []
  | c :: cs => (if c = '\t' then ['^', 'I'] else [c]) ++ tab_expand cs

/-- `transform_line` from mycat.cpp: tab expansion when `show_tabs`,
then a trailing `$` when `show_ends`. -/
def transform_line (line : String) (opts : Options) : String :=
  let result := if opts.show_tabs then String.mk (tab_expand line.toList) else line
  if opts.show_ends then result ++ "$" else result

/-- The number field written by
`std::cout << std::setw(6) << std::right << line_number++ << " "`:
the decimal digits right-justified to a minimum width of 6 (space fill),
followed by one space. -/
def format_number (n : Nat) : String :=
  String.mk (List.replicate (6 - (Nat.repr n).length) ' ') ++ Nat.repr n ++ " "

/-- The body of the `while(std::getline(...))` loop in `process_file` for a
single line: either the line is discarded by squeezing (`none`, state
untouched), or a chunk is emitted and the state updated. -/
def process_line (opts : Options) (st : StreamState) (line : String) :
    Option String × StreamState :=
  let is_blank := line.isEmpty
  if opts.squeeze_blanks && is_blank && st.last_was_blank then
    (none, st)
  else
    let numbered := opts.number_lines || (opts.number_non_blank && !is_blank)
    let numStr := if numbered then format_number st.line_number else ""
    let nextNumber := if numbered then st.line_number + 1 else st.line_number
    (some (numStr ++ transform_line line opts ++ "\n"), ⟨nextNumber, is_blank⟩)

/-- The whole read loop of `process_file` over the lines of one source:
output chunks in order, and the final state. -/
def process_lines (opts : Options) : StreamState → List String → List String × StreamState
  | st, [] => ([], st)
  | st, l :: ls =>
    let r := process_line opts st l
    let rest := process_lines opts r.2 ls
    (r.1.toList ++ rest.1, rest.2)

/-- The sub-sequence of input lines that are considered (not discarded by
squeezing), derived from `process_line`: a line is kept exactly when
`process_line` emits a chunk for it. -/
def considered (opts : Options) : StreamState → List String → List String
  | _, [] => []
  | st, l :: ls =>
    let r := process_line opts st l
    (if r.1.isSome then [l] else []) ++ considered opts r.2 ls

/-- What the environment does when one source is accessed: the
`check_file_access` step fails with some diagnostic text, the
`std::ifstream` open fails with some diagnostic text, or the source yields
a list of lines, possibly followed by a read error (`istream::bad`).
Standard input is modelled by a `readable` fate. -/
inductive SourceFate where
  | accessDenied (msg : String)
  | openFailure (msg : String)
  | readable (lines : List String) (readError : Bool)
deriving DecidableEq, Repr

/-- One input source: its name as given on the command line, and its fate. -/
structure Source where
  name : String
  fate : SourceFate
deriving DecidableEq, Repr

/-- A diagnostic line on standard error, format `mycat: <name>: <message>`. -/
def diag (name message : String) : String :=
  "mycat: " ++ name ++ ": " ++ message ++ "\n"

/-- `true` when processing this source fails (access check, open, or read
error) and so sets `had_errors` in `main`. -/
def source_failed (s : Source) : Bool :=
  match s.fate with
  | .accessDenied _ => true
  | .openFailure _ => true
  | .readable _ readError => readError

/-- One iteration of the loop in `main` over one source: the access check,
then `process_file` (open, read loop, `bad()` check). Result: stdout
chunks, stderr diagnostics, the state after the source, and the success
flag returned to `main`. -/
def handle_source (opts : Options) (st : StreamState) (s : Source) :
    List String × List String × StreamState × Bool :=
  match s.fate with
  | .accessDenied msg => ([], [diag s.name msg], st, false)
  | .openFailure msg => ([], [diag s.name msg], st, false)
  | .readable lines readError =>
    let r := process_lines opts st lines
    (r.1, if readError then [diag s.name "Read error"] else [], r.2, !readError)

/-- The loop of `main` over the source list, threading `line_number`,
`last_was_blank` and `had_errors`; no failure aborts the loop. -/
def run_files (opts : Options) (st : StreamState) (had_errors : Bool) :
    List Source → List String × List String × StreamState × Bool
  | [] => ([], [], st, had_errors)
  | s :: ss =>
    let r := handle_source opts st s
    let rest := run_files opts r.2.2.1 (had_errors || !r.2.2.2) ss
    (r.1 ++ rest.1, r.2.1 ++ rest.2.1, rest.2.2.1, rest.2.2.2)

/-- The processing phase of `main`: state starts at
`line_number = 1, last_was_blank = false`, `had_errors = false`; the exit
code is 1 when any source failed, else 0. -/
def mycat_run (opts : Options) (srcs : List Source) : List String × List String × Nat :=
  let r := run_files opts ⟨1, false⟩ false srcs
  (r.1, r.2.1, if r.2.2.2 then 1 else 0)

/-- The inner flag loop of `parse_arguments` over the characters of one
`-xyz` argument (from index 1 on). `Except.error msgs` models `return
false` — for `h` with no diagnostic, for an invalid option with the two
diagnostic lines the program prints. -/
def apply_flags (opts : Options) : List Char → Except (List String) Options
  | [] => .ok opts
  | c :: cs =>
    if c = 'n' then apply_flags { opts with number_lines := true } cs
    else if c = 'b' then apply_flags { opts with number_non_blank := true } cs
    else if c = 'E' then apply_flags { opts with show_ends := true } cs
    else if c = 'T' then apply_flags { opts with show_tabs := true } cs
    else if c = 's' then apply_flags { opts with squeeze_blanks := true } cs
    else if c = 'h' then .error []
    else .error ["mycat: invalid option -- " ++ String.mk ['\x27', c, '\x27'] ++ "\n",
                 "Try mycat -h for more information.\n"]

/-- The argument loop of `parse_arguments`: `--` stops flag parsing; a
`-...` argument of length > 1 is parsed as flags while flag parsing is
active; everything else is a filename. (The C++ `arg == "-"` check inside
the flag branch is unreachable, since the branch requires length > 1.) -/
def parse_loop (stop : Bool) (opts : Options) (files : List String) :
    List String → Except (List String) (Options × List String)
  | [] => .ok (opts, files)
  | a :: rest =>
    if a = "--" then parse_loop true opts files rest
    else if !stop && (a.front = '-') && decide (a.length > 1) then
      match apply_flags opts (a.toList.drop 1) with
      | .error msgs => .error msgs
      | .ok opts2 => parse_loop stop opts2 files rest
    else parse_loop stop opts (files ++ [a]) rest

/-- The post-parsing normalisation in `parse_arguments`:
`-b` overrides `-n`. -/
def resolve_precedence (opts : Options) : Options :=
  if opts.number_non_blank then { opts with number_lines := false } else opts

/-- `parse_arguments` from mycat.cpp on `argv[1..]`: parse flags and
filenames, then resolve the `-b` over `-n` precedence. -/
def parse_arguments (args : List String) :
    Except (List String) (Options × List String) :=
  match parse_loop false {} [] args with
  | .error msgs => .error msgs
  | .ok (opts, files) => .ok (resolve_precedence opts, files)

/-- The usage text written by `print_usage`. -/
def usage_text (program_name : String) : String :=
  "Usage: " ++ program_name ++ " [OPTION]... [FILE]...\n" ++
  "Concatenate FILE(S) to standard output. \n\n" ++
  "Options:\n" ++
  "  -n      number all output lines\n" ++
  "  -b      number non-empty output lines\n" ++
  "  -E      display $ at the end of each line\n" ++
  "  -T      display TAB charactesr as ^I\n" ++
  "  -s      squeeze multiple blank lines\n" ++
  "  -h      display this help and exit\n" ++
  "With no FILE or when FILE is -, read standard input.\n"

/-- `main` from mycat.cpp: parse the arguments (printing any parse
diagnostics and the usage text, and exiting 1, on failure), default the
file list to standard input, and run over the sources. `env` gives each
named source its fate. -/
def mycat_main (prog : String) (args : List String) (env : String → SourceFate) :
    List String × List String × Nat :=
  match parse_arguments args with
  | .error msgs => ([], msgs ++ [usage_text prog], 1)
  | .ok (opts, files) =>
    let files2 := if files.isEmpty then ["-"] else files
    mycat_run opts (files2.map (fun f => ⟨f, env f⟩))

/-- Modelled from the spec (section 8, numbering sequence): the expected
output when every line is numbered, numbers counting up from `start`. -/
def spec_numbered_output (opts : Options) (start : Nat) : List String → List String
  | [] => []
  | l :: ls =>
    (format_number start ++ transform_line l opts ++ "\n") ::
      spec_numbered_output opts (start + 1) ls

/-- Modelled from the spec (section 4.1): tab substitution as an
independent per-character replacement, left to right, one-to-one. -/
def spec_transform (line : String) (opts : Options) : String :=
  let tabbed :=
    if opts.show_tabs then
      String.mk (line.toList.flatMap (fun c => if c = '\t' then ['^', 'I'] else [c]))
    else line
  if opts.show_ends then tabbed ++ "$" else tabbed

/-! ### Helper lemmas -/

theorem tab_expand_append (a b : List Char) :
    tab_expand (a ++ b) = tab_expand a ++ tab_expand b := by
  induction a with
  | nil => simp [tab_expand]
  | cons c cs ih => simp [tab_expand, ih]

theorem tab_expand_eq_flatMap (s : List Char) :
    tab_expand s = s.flatMap (fun c => if c = '\t' then ['^', 'I'] else [c]) := by
  induction s with
  | nil => simp [tab_expand]
  | cons c cs ih => simp [tab_expand, ih]

theorem process_line_discard (opts : Options) (st : StreamState) (l : String)
    (h : (opts.squeeze_blanks && l.isEmpty && st.last_was_blank) = true) :
    process_line opts st l = (none, st) := by
  simp [process_line, h]

theorem process_line_keep (opts : Options) (st : StreamState) (l : String)
    (h : (opts.squeeze_blanks && l.isEmpty && st.last_was_blank) = false) :
    process_line opts st l =
      (some ((if opts.number_lines || (opts.number_non_blank && !l.isEmpty)
                then format_number st.line_number else "")
             ++ transform_line l opts ++ "\n"),
       ⟨if opts.number_lines || (opts.number_non_blank && !l.isEmpty)
          then st.line_number + 1 else st.line_number, l.isEmpty⟩) := by
  simp [process_line, h]

theorem process_line_line_number_const (e t sq : Bool) (st : StreamState) (l : String) :
    (process_line ⟨false, false, e, t, sq⟩ st l).2.line_number = st.line_number := by
  by_cases h : (Options.squeeze_blanks ⟨false, false, e, t, sq⟩ && l.isEmpty
      && st.last_was_blank) = true
  · rw [process_line_discard _ _ _ h]
  · rw [process_line_keep _ _ _ (by simpa using h)]
    simp

theorem process_lines_line_number_const (e t sq : Bool) (lines : List String) :
    ∀ st : StreamState,
      (process_lines ⟨false, false, e, t, sq⟩ st lines).2.line_number = st.line_number := by
  induction lines with
  | nil => intro st; rfl
  | cons l ls ih =>
    intro st
    simp only [process_lines]
    rw [ih, process_line_line_number_const]

theorem handle_source_line_number_const (e t sq : Bool) (st : StreamState) (s : Source) :
    (handle_source ⟨false, false, e, t, sq⟩ st s).2.2.1.line_number
      = st.line_number := by
  rcases s with ⟨name, fate⟩
  cases fate with
  | accessDenied msg => rfl
  | openFailure msg => rfl
  | readable lines readErr => simp [handle_source, process_lines_line_number_const]

theorem run_files_line_number_const (e t sq : Bool) (srcs : List Source) :
    ∀ (st : StreamState) (he : Bool),
      (run_files ⟨false, false, e, t, sq⟩ st he srcs).2.2.1.line_number
        = st.line_number := by
  induction srcs with
  | nil => intro st he; rfl
  | cons s ss ih =>
    intro st he
    simp only [run_files]
    rw [ih, handle_source_line_number_const]

/-! ### Claim theorems -/

/-- Claim C3: for every line and every configuration, `transform_line`
first (when `show_tabs` is set) replaces every horizontal tab with the
two-character sequence `^I`, scanning left to right, non-overlapping and
one-to-one, leaving all other characters unchanged in order — expressed
both as agreement with the per-character replacement `spec_transform`,
and by the characterising equations of the expansion (homomorphic over
concatenation, tab goes to `^I`, any other single character is fixed) —
and then (when `show_ends` is set) appends a single literal `$`. The
function is a total Lean function, hence pure and never failing. -/
theorem claim_C3_transform_spec (line : String) (opts : Options) :
    transform_line line opts = spec_transform line opts
    ∧ (∀ a b : List Char, tab_expand (a ++ b) = tab_expand a ++ tab_expand b)
    ∧ tab_expand ['\t'] = ['^', 'I']
    ∧ (∀ c : Char, tab_expand [c] = if c = '\t' then ['^', 'I'] else [c]) := by
  refine ⟨?_, tab_expand_append, by simp [tab_expand], ?_⟩
  · simp [transform_line, spec_transform, tab_expand_eq_flatMap]
  · intro c
    simp [tab_expand]

/-- Claim C8: `transform_line` with both `show_tabs` and `show_ends`
false is the identity on every line, and hence transforming twice — first
with both options false, then with any configuration — equals
transforming once with that configuration. -/
theorem claim_C8_transform_identity (line : String) (nl nb sq : Bool) (cfg : Options) :
    transform_line line ⟨nl, nb, false, false, sq⟩ = line
    ∧ transform_line (transform_line line ⟨nl, nb, false, false, sq⟩) cfg
        = transform_line line cfg := by
  constructor
  · simp [transform_line]
  · simp [transform_line]

/-- Claim C9: when opening a named source fails, handling that source
writes nothing to the output sink, writes the open diagnostic to the
error sink, leaves the stream state (both `line_number` and
`last_was_blank`) exactly as it was, and reports failure. -/
theorem claim_C9_open_failure_frame (opts : Options) (st : StreamState)
    (name msg : String) :
    handle_source opts st ⟨name, SourceFate.openFailure msg⟩
      = ([], [diag name msg], st, false) := rfl

/-- Claim C10: when neither `number_lines` nor `number_non_blank` is set,
`line_number` is never changed: it is preserved by the line loop of
`process_file` over any lines, and by the whole loop of `main` over any
sources — in particular, started at 1 it stays 1 through the entire
run. -/
theorem claim_C10_line_number_frame (e t sq : Bool) :
    (∀ (st : StreamState) (lines : List String),
       (process_lines ⟨false, false, e, t, sq⟩ st lines).2.line_number
         = st.line_number)
    ∧ (∀ (st : StreamState) (he : Bool) (srcs : List Source),
       (run_files ⟨false, false, e, t, sq⟩ st he srcs).2.2.1.line_number
         = st.line_number) :=
  ⟨fun st lines => process_lines_line_number_const e t sq lines st,
   fun st he srcs => run_files_line_number_const e t sq srcs st he⟩

/-- Claim C7: a source that yields its lines but ends in a read error
(distinct from clean end-of-source) produces all its lines' output, a
diagnostic `mycat: <name>: Read error` on the error sink, and is recorded
as failed; and in the loop of `main` the remaining sources are still
processed afterwards, from the state left by this source. -/
theorem claim_C7_read_error (opts : Options) (st : StreamState) (name : String)
    (lines : List String) (he : Bool) (ss : List Source) :
    handle_source opts st ⟨name, SourceFate.readable lines true⟩
      = ((process_lines opts st lines).1, [diag name "Read error"],
         (process_lines opts st lines).2, false)
    ∧ run_files opts st he (⟨name, SourceFate.readable lines true⟩ :: ss)
      = ((process_lines opts st lines).1
           ++ (run_files opts (process_lines opts st lines).2 true ss).1,
         diag name "Read error"
           :: (run_files opts (process_lines opts st lines).2 true ss).2.1,
         (run_files opts (process_lines opts st lines).2 true ss).2.2.1,
         (run_files opts (process_lines opts st lines).2 true ss).2.2.2) := by
  constructor
  · rfl
  · simp [run_files, handle_source]

theorem considered_cons (opts : Options) (st : StreamState) (l : String)
    (ls : List String) :
    considered opts st (l :: ls) =
      (if (process_line opts st l).1.isSome then [l] else [])
        ++ considered opts (process_line opts st l).2 ls := rfl

theorem considered_squeeze_chain (opts : Options) (h : opts.squeeze_blanks = true)
    (lines : List String) :
    ∀ (n : Nat) (b : Bool),
      List.Chain' (fun a c : String => a.isEmpty = false ∨ c.isEmpty = false)
        (considered opts ⟨n, b⟩ lines)
      ∧ (b = true → ∀ c, (considered opts ⟨n, b⟩ lines).head? = some c →
          c.isEmpty = false) := by
  induction lines with
  | nil =>
    intro n b
    constructor
    · simp [considered]
    · intro _ c hc
      simp [considered] at hc
  | cons l ls ih =>
    intro n b
    by_cases hcond : (opts.squeeze_blanks && l.isEmpty
        && StreamState.last_was_blank ⟨n, b⟩) = true
    · rw [considered_cons, process_line_discard _ _ _ hcond]
      simpa using ih n b
    · push_neg at hcond
      rw [considered_cons, process_line_keep _ _ _ (by simpa using hcond)]
      simp only [Option.isSome_some, if_pos, List.singleton_append]
      have hl : b = true → l.isEmpty = false := by
        intro hb
        rcases hle : l.isEmpty with _ | _
        · rfl
        · exfalso
          exact hcond (by simp [h, hle, hb])
      refine ⟨?_, ?_⟩
      · rw [List.chain'_cons']
        refine ⟨?_, (ih _ l.isEmpty).1⟩
        intro c hc
        rcases hle : l.isEmpty with _ | _
        · exact Or.inl rfl
        · exact Or.inr ((ih _ l.isEmpty).2 hle c (by rwa [hle] at hc))
      · intro hb c hc
        rw [List.head?_cons, Option.some_inj] at hc
        rw [← hc]
        exact hl hb

/-- Claim C2: with `squeeze_blanks` set, a blank line whose predecessor
was blank is discarded entirely — nothing emitted, line counter and
`last_was_blank` untouched; consequently, starting from
`last_was_blank = false`, no two consecutive considered (non-discarded)
lines are both blank; and a line processed while `last_was_blank = false`
— in particular the first line of a run — is never discarded, blank or
not. -/
theorem claim_C2_squeeze_invariant (nl nb e t : Bool) (n : Nat)
    (lines : List String) (opts2 : Options) (m : Nat) (l : String) :
    process_line ⟨nl, nb, e, t, true⟩ ⟨n, true⟩ "" = (none, ⟨n, true⟩)
    ∧ List.Chain' (fun a c : String => a.isEmpty = false ∨ c.isEmpty = false)
        (considered ⟨nl, nb, e, t, true⟩ ⟨n, false⟩ lines)
    ∧ ((process_line opts2 ⟨m, false⟩ l).1).isSome = true := by
  refine ⟨?_, (considered_squeeze_chain ⟨nl, nb, e, t, true⟩ rfl lines n false).1, ?_⟩
  · exact process_line_discard _ _ _ rfl
  · rw [process_line_keep _ _ _ (by simp)]
    rfl

theorem format_number_length (n : Nat) :
    (format_number n).length = max 6 (Nat.repr n).length + 1 := by
  unfold format_number
  rw [String.length_append, String.length_append, String.length_mk,
    List.length_replicate]
  have h1 : (" " : String).length = 1 := rfl
  rw [h1]
  rcases Nat.le_total 6 (Nat.repr n).length with h | h
  · rw [max_eq_right h]
    omega
  · rw [max_eq_left h]
    omega

theorem process_lines_number_all (nb e t : Bool) (lines : List String) :
    ∀ (n : Nat) (b : Bool),
      (process_lines ⟨true, nb, e, t, false⟩ ⟨n, b⟩ lines).1
          = spec_numbered_output ⟨true, nb, e, t, false⟩ n lines
      ∧ (process_lines ⟨true, nb, e, t, false⟩ ⟨n, b⟩ lines).2.line_number
          = n + lines.length := by
  induction lines with
  | nil =>
    intro n b
    exact ⟨rfl, rfl⟩
  | cons l ls ih =>
    intro n b
    have hk : (Options.squeeze_blanks ⟨true, nb, e, t, false⟩ && l.isEmpty
        && StreamState.last_was_blank ⟨n, b⟩) = false := by simp
    have h1 := ih (n + 1) l.isEmpty
    constructor
    · simp only [process_lines, process_line_keep _ _ _ hk, spec_numbered_output]
      simp [h1.1]
    · simp only [process_lines, process_line_keep _ _ _ hk]
      simp [h1.2]
      omega

/-- Claim C1: for a considered (non-discarded) line, a number is emitted
if and only if `number_lines` is set, or `number_non_blank` is set and
the line is non-blank; the emitted number is `line_number` rendered
decimal, right-justified to minimum width 6 and followed by one space
(so the field is `max 6 digits + 1` characters wide), and `line_number`
is incremented by 1 exactly when a number is emitted; hence with
`number_lines` set and squeezing off, the output over any N lines from
the initial state carries exactly the numbers 1..N in order, with no
gaps or repeats, and the counter ends at 1 + N. -/
theorem claim_C1_numbering (opts : Options) (st : StreamState) (l : String)
    (nb e t b : Bool) (lines : List String) (m : Nat) :
    (¬((opts.squeeze_blanks && l.isEmpty && st.last_was_blank) = true) →
       (((opts.number_lines || (opts.number_non_blank && !l.isEmpty)) = true →
          process_line opts st l
            = (some (format_number st.line_number ++ transform_line l opts ++ "\n"),
               ⟨st.line_number + 1, l.isEmpty⟩))
        ∧ ((opts.number_lines || (opts.number_non_blank && !l.isEmpty)) = false →
          process_line opts st l
            = (some (transform_line l opts ++ "\n"), ⟨st.line_number, l.isEmpty⟩))))
    ∧ (format_number m).length = max 6 (Nat.repr m).length + 1
    ∧ (process_lines ⟨true, nb, e, t, false⟩ ⟨1, b⟩ lines).1
        = spec_numbered_output ⟨true, nb, e, t, false⟩ 1 lines
    ∧ (process_lines ⟨true, nb, e, t, false⟩ ⟨1, b⟩ lines).2.line_number
        = 1 + lines.length := by
  refine ⟨?_, format_number_length m, (process_lines_number_all nb e t lines 1 b).1,
    (process_lines_number_all nb e t lines 1 b).2⟩
  intro hnd
  rw [Bool.not_eq_true] at hnd
  constructor
  · intro hc
    rw [process_line_keep _ _ _ hnd, hc]
    simp
  · intro hc
    rw [process_line_keep _ _ _ hnd, hc]
    simp

/-- Concrete instantiation of the numbering theorem: a non-blank line in
the numbering configuration, and a blank line in the non-blank-only
configuration. -/
theorem claim_C1_numbering_witness :
    process_line ⟨true, false, false, false, false⟩ ⟨1, false⟩ "a"
      = (some (format_number 1 ++ transform_line "a" ⟨true, false, false, false, false⟩
          ++ "\n"), ⟨2, "a".isEmpty⟩)
    ∧ process_line ⟨false, true, false, false, false⟩ ⟨5, false⟩ ""
      = (some (transform_line "" ⟨false, true, false, false, false⟩ ++ "\n"),
         ⟨5, "".isEmpty⟩) :=
  ⟨((claim_C1_numbering ⟨true, false, false, false, false⟩ ⟨1, false⟩ "a"
      false false false false [] 0).1 (by decide)).1 (by decide),
   ((claim_C1_numbering ⟨false, true, false, false, false⟩ ⟨5, false⟩ ""
      false false false false [] 0).1 (by decide)).2 (by decide)⟩

/-- Claim C6: the `-b` over `-n` precedence is resolved once, at
configuration-construction time: any configuration produced by
`parse_arguments` with `number_non_blank` set has `number_lines` cleared;
resolving a configuration with both flags raw-set yields exactly the
configuration resolved from `number_non_blank` alone, and hence the line
loop behaves identically on every state and input for the two. -/
theorem claim_C6_precedence (args : List String) (opts : Options)
    (files : List String) (e t sq : Bool) (st : StreamState)
    (lines : List String) :
    (parse_arguments args = .ok (opts, files) → opts.number_non_blank = true →
       opts.number_lines = false)
    ∧ resolve_precedence ⟨true, true, e, t, sq⟩
        = resolve_precedence ⟨false, true, e, t, sq⟩
    ∧ process_lines (resolve_precedence ⟨true, true, e, t, sq⟩) st lines
        = process_lines (resolve_precedence ⟨false, true, e, t, sq⟩) st lines := by
  have hres : ∀ o : Options, (resolve_precedence o).number_non_blank = true →
      (resolve_precedence o).number_lines = false := by
    intro o
    by_cases ho : o.number_non_blank = true
    · simp [resolve_precedence, ho]
    · simp [resolve_precedence, ho]
  refine ⟨?_, rfl, rfl⟩
  intro h
  unfold parse_arguments at h
  rcases hp : parse_loop false {} [] args with msgs | ⟨o, fs⟩
  · rw [hp] at h
    cases h
  · rw [hp] at h
    simp only [Except.ok.injEq, Prod.mk.injEq] at h
    obtain ⟨h1, h2⟩ := h
    rw [← h1]
    exact hres o

/-- Concrete instantiation of the precedence theorem: parsing `-bn`
(both numbering flags requested) yields a configuration with
`number_lines` cleared. -/
theorem claim_C6_precedence_witness :
    parse_arguments ["-bn"] = .ok (⟨false, true, false, false, false⟩, [])
    ∧ (⟨false, true, false, false, false⟩ : Options).number_lines = false :=
  ⟨rfl,
   (claim_C6_precedence ["-bn"] ⟨false, true, false, false, false⟩ []
      false false false ⟨1, false⟩ []).1 rfl rfl⟩

theorem run_files_append (opts : Options) (s1 : List Source) :
    ∀ (st : StreamState) (he : Bool) (s2 : List Source),
      run_files opts st he (s1 ++ s2) =
        ((run_files opts st he s1).1
           ++ (run_files opts (run_files opts st he s1).2.2.1
                 (run_files opts st he s1).2.2.2 s2).1,
         (run_files opts st he s1).2.1
           ++ (run_files opts (run_files opts st he s1).2.2.1
                 (run_files opts st he s1).2.2.2 s2).2.1,
         (run_files opts (run_files opts st he s1).2.2.1
            (run_files opts st he s1).2.2.2 s2).2.2.1,
         (run_files opts (run_files opts st he s1).2.2.1
            (run_files opts st he s1).2.2.2 s2).2.2.2) := by
  induction s1 with
  | nil =>
    intro st he s2
    simp [run_files]
  | cons s ss ih =>
    intro st he s2
    simp only [List.cons_append, run_files]
    simp [ih, List.append_assoc]

theorem run_files_had_errors (opts : Options) (srcs : List Source) :
    ∀ (st : StreamState) (he : Bool),
      (run_files opts st he srcs).2.2.2 = (he || srcs.any source_failed) := by
  induction srcs with
  | nil =>
    intro st he
    simp [run_files]
  | cons s ss ih =>
    intro st he
    rcases s with ⟨name, fate⟩
    cases fate with
    | accessDenied msg =>
      simp [run_files, handle_source, ih, source_failed, Bool.or_assoc]
    | openFailure msg =>
      simp [run_files, handle_source, ih, source_failed, Bool.or_assoc]
    | readable lines readErr =>
      simp [run_files, handle_source, ih, source_failed, Bool.or_assoc]

/-- Claim C5: a failure on one source never aborts the run — processing a
source list decomposes source by source, each later source processed from
the state and error flag left by the earlier ones, whatever they were —
and the exit code is 1 exactly when some source failed (access check,
open, or read error), or argument parsing signalled invalid usage or
help; it is 0 when all sources processed without error. -/
theorem claim_C5_exit_and_no_abort (opts : Options) (st : StreamState) (he : Bool)
    (s1 s2 srcs : List Source) (prog : String) (args : List String)
    (env : String → SourceFate) (msgs : List String) (popts : Options)
    (pfiles : List String) :
    run_files opts st he (s1 ++ s2) =
      ((run_files opts st he s1).1
         ++ (run_files opts (run_files opts st he s1).2.2.1
               (run_files opts st he s1).2.2.2 s2).1,
       (run_files opts st he s1).2.1
         ++ (run_files opts (run_files opts st he s1).2.2.1
               (run_files opts st he s1).2.2.2 s2).2.1,
       (run_files opts (run_files opts st he s1).2.2.1
          (run_files opts st he s1).2.2.2 s2).2.2.1,
       (run_files opts (run_files opts st he s1).2.2.1
          (run_files opts st he s1).2.2.2 s2).2.2.2)
    ∧ (mycat_run opts srcs).2.2 = (if srcs.any source_failed then 1 else 0)
    ∧ (parse_arguments args = .error msgs → (mycat_main prog args env).2.2 = 1)
    ∧ (parse_arguments args = .ok (popts, pfiles) →
        (mycat_main prog args env).2.2
          = if ((if pfiles.isEmpty then ["-"] else pfiles).map
                  (fun f => (⟨f, env f⟩ : Source))).any source_failed
            then 1 else 0) := by
  refine ⟨run_files_append opts s1 st he s2, ?_, ?_, ?_⟩
  · simp [mycat_run, run_files_had_errors]
  · intro h
    unfold mycat_main
    rw [h]
  · intro h
    unfold mycat_main
    rw [h]
    simp [mycat_run, run_files_had_errors]

/-- Concrete instantiation of the exit-code theorem: `-h` exits 1, and a
run over standard input with no errors exits 0. -/
theorem claim_C5_exit_witness :
    (mycat_main "mycat" ["-h"] (fun _ => SourceFate.readable [] false)).2.2 = 1
    ∧ (mycat_main "mycat" [] (fun _ => SourceFate.readable [] false)).2.2 = 0 := by
  constructor
  · exact (claim_C5_exit_and_no_abort {} ⟨1, false⟩ false [] [] [] "mycat" ["-h"]
      (fun _ => SourceFate.readable [] false) [] {} []).2.2.1 rfl
  · have h := (claim_C5_exit_and_no_abort {} ⟨1, false⟩ false [] [] [] "mycat" []
      (fun _ => SourceFate.readable [] false) [] {} []).2.2.2 rfl
    simpa [source_failed] using h

theorem process_lines_append (opts : Options) (l1 : List String) :
    ∀ (st : StreamState) (l2 : List String),
      process_lines opts st (l1 ++ l2)
        = ((process_lines opts st l1).1
             ++ (process_lines opts (process_lines opts st l1).2 l2).1,
           (process_lines opts (process_lines opts st l1).2 l2).2) := by
  induction l1 with
  | nil =>
    intro st l2
    simp [process_lines]
  | cons l ls ih =>
    intro st l2
    simp only [List.cons_append, process_lines]
    simp [ih, List.append_assoc]

theorem run_files_readable (opts : Options) (ps : List (String × List String)) :
    ∀ (st : StreamState) (he : Bool),
      run_files opts st he
          (ps.map (fun p => ⟨p.1, SourceFate.readable p.2 false⟩))
        = ((process_lines opts st (ps.map Prod.snd).flatten).1, [],
           (process_lines opts st (ps.map Prod.snd).flatten).2, he) := by
  induction ps with
  | nil =>
    intro st he
    simp [run_files, process_lines, List.flatten]
  | cons p pss ih =>
    intro st he
    simp only [List.map_cons, run_files, handle_source, List.flatten]
    simp [ih, process_lines_append]

/-- Claim C4: line numbering and blank-run tracking are one continuous
state threaded across all sources in order, never reset at a source
boundary: running over any list of error-free sources equals one line
loop over the concatenation of all their lines (same output, same final
state, for every configuration and starting state); in particular two
sources yielding `a`,`b` and `c` with `number_lines` set emit the numbers
1, 2, 3, and with squeezing set the blank flag carried out of one source
discards a leading blank line of the next source. -/
theorem claim_C4_state_across_sources (opts : Options) (st : StreamState)
    (he : Bool) (ps : List (String × List String)) :
    run_files opts st he
        (ps.map (fun p => ⟨p.1, SourceFate.readable p.2 false⟩))
      = ((process_lines opts st (ps.map Prod.snd).flatten).1, [],
         (process_lines opts st (ps.map Prod.snd).flatten).2, he)
    ∧ mycat_run ⟨true, false, false, false, false⟩
        [⟨"f1", SourceFate.readable ["a", "b"] false⟩,
         ⟨"f2", SourceFate.readable ["c"] false⟩]
      = (["     1 a\n", "     2 b\n", "     3 c\n"], [], 0)
    ∧ mycat_run ⟨false, false, false, false, true⟩
        [⟨"f1", SourceFate.readable ["a", ""] false⟩,
         ⟨"f2", SourceFate.readable ["", "b"] false⟩]
      = (["a\n", "\n", "b\n"], [], 0) :=
  ⟨run_files_readable opts ps st he, by decide, by decide⟩
